import Mathlib

/-!
Verification of `src/hack/sizeof.c`.

The program is a straight-line sequence of 19 `printf` calls:
nine `PRINT_VAL(UFFDIO_*)` lines printing operation-identifier constants
with `"%-20s %lx\n"`, then ten `PRINT_SIZE(struct-tag)` lines printing
structure sizes with `"%-20s %zu\n"`, followed by `return 0`.

The numeric values of the `UFFDIO_*` constants and the `sizeof` results
come from the platform headers (`linux/userfaultfd.h`), which are not part
of the repository; the embedding is therefore parameterised by an
environment `Env` holding those build-time numbers, and every theorem is
quantified over all environments.
-/

namespace SizeofTool

/-- The sixteen digit characters printf uses for `%x`-style output,
`0` to `9` then `a` to `f` (lowercase, as C `%lx` produces). -/
def hexChars : List Char :=
  (List.range 16).map Nat.digitChar

/-- Digits of `n` in base `b`, most significant first, empty for `n = 0`.
Fuel-structured so that the kernel can evaluate it; fuel `n` always
suffices because `n / b < n` for `n > 0`, `b ≥ 2`. -/
def renderAux (b : Nat) : Nat → Nat → List Char
  | 0, _ => []
  | fuel + 1, n => if n = 0 then [] else renderAux b fuel (n / b) ++ [Nat.digitChar (n % b)]

/-- The string printf produces for a nonnegative integer in base `b`
(no sign, no prefix, `"0"` for zero): the semantics of `%lx` (`b = 16`)
and `%zu` (`b = 10`). -/
def render (b n : Nat) : String :=
  if n = 0 then String.mk [Nat.digitChar 0] else String.mk (renderAux b n n)

/-- `%lx`: lowercase hexadecimal, no `0x` prefix. -/
def hexStr (v : Nat) : String := render 16 v

/-- `%zu`: unsigned decimal. -/
def decStr (n : Nat) : String := render 10 n

/-- A value field parses as a nonnegative integer in base `b` (digits drawn
from the printf digit alphabet) exactly when it is nonempty and every
character is a digit of that base; the parse is the usual left fold. -/
def parseNum (b : Nat) (s : String) : Option Nat :=
  if s.data ≠ [] ∧ ∀ c ∈ s.data, hexChars.indexOf c < b then
    some (s.data.foldl (fun a c => a * b + hexChars.indexOf c) 0)
  else none

/-- `%-20s` generalised: left-justified, padded with spaces to a minimum
field width `w`; strings of length `≥ w` are unchanged. -/
def padRight (s : String) (w : Nat) : String :=
  s ++ String.mk (List.replicate (w - s.data.length) ' ')

/-- The body of one output line: `"%-20s %…"` applied to a name and an
already rendered value field (no trailing newline). -/
def lineBody (name value : String) : String :=
  padRight name 20 ++ " " ++ value

/-- `PRINT_VAL(s)`: `printf("%-20s %lx\n", #s, s)`. -/
def PRINT_VAL (s : String) (v : Nat) : String :=
  lineBody s (hexStr v) ++ "\n"

/-- `PRINT_SIZE(s)`: `printf("%-20s %zu\n", #s, sizeof(struct s))`. -/
def PRINT_SIZE (s : String) (n : Nat) : String :=
  lineBody s (decStr n) ++ "\n"

/-- The name field of an emitted line: the maximal space-free prefix
(every emitted name is space-free and is followed by padding or the
separating space). -/
def nameOf (l : String) : String :=
  String.mk (l.data.takeWhile (fun c => c != ' '))

/-- The build-time inputs of the program: the numeric values of the nine
`UFFDIO_*` ioctl operation identifiers and the ten structure sizes, all
supplied by `linux/userfaultfd.h` and the compiler ABI; the program only
reads them, never computes or mutates them. -/
structure Env where
  UFFDIO_REGISTER : Nat
  UFFDIO_UNREGISTER : Nat
  UFFDIO_WAKE : Nat
  UFFDIO_COPY : Nat
  UFFDIO_ZEROPAGE : Nat
  UFFDIO_MOVE : Nat
  UFFDIO_WRITEPROTECT : Nat
  UFFDIO_CONTINUE : Nat
  UFFDIO_POISON : Nat
  sizeof_uffd_msg : Nat
  sizeof_uffdio_api : Nat
  sizeof_uffdio_range : Nat
  sizeof_uffdio_register : Nat
  sizeof_uffdio_copy : Nat
  sizeof_uffdio_zeropage : Nat
  sizeof_uffdio_writeprotect : Nat
  sizeof_uffdio_continue : Nat
  sizeof_uffdio_poison : Nat
  sizeof_uffdio_move : Nat

/-- The sequence of strings `main` hands to `printf`, one per call, in
source order (lines 13–31 of `sizeof.c`). -/
def mainTrace (e : Env) : List String :=
  [PRINT_VAL ("UFFDIO_REGISTER") e.UFFDIO_REGISTER,
   PRINT_VAL ("UFFDIO_UNREGISTER") e.UFFDIO_UNREGISTER,
   PRINT_VAL ("UFFDIO_WAKE") e.UFFDIO_WAKE,
   PRINT_VAL ("UFFDIO_COPY") e.UFFDIO_COPY,
   PRINT_VAL ("UFFDIO_ZEROPAGE") e.UFFDIO_ZEROPAGE,
   PRINT_VAL ("UFFDIO_MOVE") e.UFFDIO_MOVE,
   PRINT_VAL ("UFFDIO_WRITEPROTECT") e.UFFDIO_WRITEPROTECT,
   PRINT_VAL ("UFFDIO_CONTINUE") e.UFFDIO_CONTINUE,
   PRINT_VAL ("UFFDIO_POISON") e.UFFDIO_POISON,
   PRINT_SIZE ("uffd_msg") e.sizeof_uffd_msg,
   PRINT_SIZE ("uffdio_api") e.sizeof_uffdio_api,
   PRINT_SIZE ("uffdio_range") e.sizeof_uffdio_range,
   PRINT_SIZE ("uffdio_register") e.sizeof_uffdio_register,
   PRINT_SIZE ("uffdio_copy") e.sizeof_uffdio_copy,
   PRINT_SIZE ("uffdio_zeropage") e.sizeof_uffdio_zeropage,
   PRINT_SIZE ("uffdio_writeprotect") e.sizeof_uffdio_writeprotect,
   PRINT_SIZE ("uffdio_continue") e.sizeof_uffdio_continue,
   PRINT_SIZE ("uffdio_poison") e.sizeof_uffdio_poison,
   PRINT_SIZE ("uffdio_move") e.sizeof_uffdio_move]

/-- Concatenation of a list of strings: what standard output accumulates
from a sequence of `printf` calls. -/
def sconcat : List String → String
  | [] => ""
  | s :: r => s ++ sconcat r

/-- Everything the program writes to standard output. -/
def mainOutput (e : Env) : String := sconcat (mainTrace e)

/-- The whole process: given the build environment, the command-line
arguments and the environment variables, it produces the standard-output
text and the exit status. The source is `int main(void)` and reads
nothing: the result does not depend on `argv` or `envp`, and `return 0`
is the only exit. -/
def main (e : Env) (argv : List String) (envp : List (String × String)) :
    String × Nat :=
  (mainOutput e, 0)

/-- The 19 line bodies (no trailing newline), in output order. -/
def mainLines (e : Env) : List String :=
  [lineBody ("UFFDIO_REGISTER") (hexStr e.UFFDIO_REGISTER),
   lineBody ("UFFDIO_UNREGISTER") (hexStr e.UFFDIO_UNREGISTER),
   lineBody ("UFFDIO_WAKE") (hexStr e.UFFDIO_WAKE),
   lineBody ("UFFDIO_COPY") (hexStr e.UFFDIO_COPY),
   lineBody ("UFFDIO_ZEROPAGE") (hexStr e.UFFDIO_ZEROPAGE),
   lineBody ("UFFDIO_MOVE") (hexStr e.UFFDIO_MOVE),
   lineBody ("UFFDIO_WRITEPROTECT") (hexStr e.UFFDIO_WRITEPROTECT),
   lineBody ("UFFDIO_CONTINUE") (hexStr e.UFFDIO_CONTINUE),
   lineBody ("UFFDIO_POISON") (hexStr e.UFFDIO_POISON),
   lineBody ("uffd_msg") (decStr e.sizeof_uffd_msg),
   lineBody ("uffdio_api") (decStr e.sizeof_uffdio_api),
   lineBody ("uffdio_range") (decStr e.sizeof_uffdio_range),
   lineBody ("uffdio_register") (decStr e.sizeof_uffdio_register),
   lineBody ("uffdio_copy") (decStr e.sizeof_uffdio_copy),
   lineBody ("uffdio_zeropage") (decStr e.sizeof_uffdio_zeropage),
   lineBody ("uffdio_writeprotect") (decStr e.sizeof_uffdio_writeprotect),
   lineBody ("uffdio_continue") (decStr e.sizeof_uffdio_continue),
   lineBody ("uffdio_poison") (decStr e.sizeof_uffdio_poison),
   lineBody ("uffdio_move") (decStr e.sizeof_uffdio_move)]

/-- Joining line bodies with one newline terminator per line. -/
def unlines : List String → String
  | [] => ""
  | l :: r => l ++ "\n" ++ unlines r

/-- The nine operation-identifier names, in output order. -/
def idNames : List String :=
  ["UFFDIO_REGISTER", "UFFDIO_UNREGISTER", "UFFDIO_WAKE", "UFFDIO_COPY",
   "UFFDIO_ZEROPAGE", "UFFDIO_MOVE", "UFFDIO_WRITEPROTECT", "UFFDIO_CONTINUE",
   "UFFDIO_POISON"]

/-- The ten structure-tag names, in output order. -/
def sizeNames : List String :=
  ["uffd_msg", "uffdio_api", "uffdio_range", "uffdio_register", "uffdio_copy",
   "uffdio_zeropage", "uffdio_writeprotect", "uffdio_continue", "uffdio_poison",
   "uffdio_move"]

/-- The full 19-name checklist. -/
def checklistNames : List String := idNames ++ sizeNames

/-- Identifier name/value pairs, in output order. -/
def idItems (e : Env) : List (String × Nat) :=
  [("UFFDIO_REGISTER", e.UFFDIO_REGISTER),
   ("UFFDIO_UNREGISTER", e.UFFDIO_UNREGISTER),
   ("UFFDIO_WAKE", e.UFFDIO_WAKE),
   ("UFFDIO_COPY", e.UFFDIO_COPY),
   ("UFFDIO_ZEROPAGE", e.UFFDIO_ZEROPAGE),
   ("UFFDIO_MOVE", e.UFFDIO_MOVE),
   ("UFFDIO_WRITEPROTECT", e.UFFDIO_WRITEPROTECT),
   ("UFFDIO_CONTINUE", e.UFFDIO_CONTINUE),
   ("UFFDIO_POISON", e.UFFDIO_POISON)]

/-- Structure name/size pairs, in output order. -/
def sizeItems (e : Env) : List (String × Nat) :=
  [("uffd_msg", e.sizeof_uffd_msg),
   ("uffdio_api", e.sizeof_uffdio_api),
   ("uffdio_range", e.sizeof_uffdio_range),
   ("uffdio_register", e.sizeof_uffdio_register),
   ("uffdio_copy", e.sizeof_uffdio_copy),
   ("uffdio_zeropage", e.sizeof_uffdio_zeropage),
   ("uffdio_writeprotect", e.sizeof_uffdio_writeprotect),
   ("uffdio_continue", e.sizeof_uffdio_continue),
   ("uffdio_poison", e.sizeof_uffdio_poison),
   ("uffdio_move", e.sizeof_uffdio_move)]

lemma indexOf_digitChar {d : Nat} (hd : d < 16) :
    hexChars.indexOf (Nat.digitChar d) = d := by
  interval_cases d <;> rfl

lemma renderAux_mem {b : Nat} (hb0 : 0 < b) (hb16 : b ≤ 16) :
    ∀ fuel n, ∀ c ∈ renderAux b fuel n, hexChars.indexOf c < b := by
  intro fuel
  induction fuel with
  | zero => intro n c hc; simp [renderAux] at hc
  | succ m ih =>
    intro n c hc
    by_cases hn : n = 0
    · simp [renderAux, hn] at hc
    · simp only [renderAux, if_neg hn, List.mem_append, List.mem_singleton] at hc
      rcases hc with hc | rfl
      · exact ih _ _ hc
      · have hlt : n % b < b := Nat.mod_lt _ hb0
        rw [indexOf_digitChar (lt_of_lt_of_le hlt hb16)]
        exact hlt

lemma renderAux_ne_nil {b : Nat} (fuel n : Nat) (hn : n ≠ 0) :
    renderAux b (fuel + 1) n ≠ [] := by
  simp [renderAux, hn]

lemma renderAux_foldl {b : Nat} (hb2 : 2 ≤ b) (hb16 : b ≤ 16) :
    ∀ fuel n, n ≤ fuel → ∀ a : Nat,
      (renderAux b fuel n).foldl (fun x c => x * b + hexChars.indexOf c) a
        = a * b ^ (renderAux b fuel n).length + n := by
  intro fuel
  induction fuel with
  | zero =>
    intro n hn a
    interval_cases n
    simp [renderAux]
  | succ m ih =>
    intro n hn a
    by_cases hn0 : n = 0
    · simp [renderAux, hn0]
    · have hb0 : 0 < b := by omega
      have hdiv : n / b ≤ m := by
        have := Nat.div_lt_self (Nat.pos_of_ne_zero hn0) hb2
        omega
      have hmod : n % b < 16 := by
        have := Nat.mod_lt n hb0
        omega
      simp only [renderAux, if_neg hn0, List.foldl_append, List.length_append,
        List.foldl_cons, List.foldl_nil, List.length_cons, List.length_nil]
      rw [ih _ hdiv, indexOf_digitChar hmod]
      set L := (renderAux b m (n / b)).length with hL
      conv_rhs => rw [← Nat.div_add_mod n b]
      ring

lemma render_mem {b : Nat} (hb0 : 0 < b) (hb16 : b ≤ 16) (n : Nat) :
    ∀ c ∈ (render b n).data, c ∈ hexChars := by
  intro c hc
  by_cases hn : n = 0
  · simp [render, hn] at hc
    subst hc
    decide
  · simp only [render, if_neg hn] at hc
    have := renderAux_mem hb0 hb16 n n c hc
    have hlen : hexChars.length = 16 := rfl
    exact List.indexOf_lt_length.mp (by omega)

lemma render_ne_nil (b n : Nat) : (render b n).data ≠ [] := by
  by_cases hn : n = 0
  · simp [render, hn]
  · obtain ⟨m, rfl⟩ := Nat.exists_eq_succ_of_ne_zero hn
    simpa [render] using renderAux_ne_nil m (m + 1) (by omega)

lemma parseNum_render {b : Nat} (hb2 : 2 ≤ b) (hb16 : b ≤ 16) (n : Nat) :
    parseNum b (render b n) = some n := by
  have hb0 : 0 < b := by omega
  have hmem : ∀ c ∈ (render b n).data, hexChars.indexOf c < b := by
    intro c hc
    by_cases hn : n = 0
    · simp [render, hn] at hc
      subst hc
      have h0 : hexChars.indexOf (Nat.digitChar 0) = 0 := by decide
      omega
    · simp only [render, if_neg hn] at hc
      exact renderAux_mem hb0 hb16 n n c hc
  rw [parseNum, if_pos ⟨render_ne_nil b n, hmem⟩]
  by_cases hn : n = 0
  · subst hn
    have h0 : hexChars.indexOf (Nat.digitChar 0) = 0 := by decide
    simp [render, h0]
  · simp only [render, if_neg hn]
    rw [renderAux_foldl hb2 hb16 n n le_rfl 0]
    simp

lemma hexChars_good :
    ∀ c ∈ hexChars, c ≠ '\n' ∧ c ≠ ' ' ∧ c ≠ 'x' ∧ c.isUpper = false := by
  decide

lemma render_no_0x {b : Nat} (hb0 : 0 < b) (hb16 : b ≤ 16) (n : Nat) :
    (render b n).data.take 2 ≠ ['0', 'x'] := by
  intro h
  have hx : 'x' ∈ (render b n).data.take 2 := by
    rw [h]; decide
  have := render_mem hb0 hb16 n 'x' (List.take_subset _ _ hx)
  exact (hexChars_good _ this).2.2.1 rfl

lemma data_lineBody (name value : String) :
    (lineBody name value).data
      = name.data ++ (List.replicate (20 - name.data.length) ' ' ++ ' ' :: value.data) := by
  simp [lineBody, padRight, String.data_append]

lemma takeWhile_pad (k : Nat) (r : List Char) :
    (List.replicate k ' ' ++ ' ' :: r).takeWhile (fun c => c != ' ') = [] := by
  cases k <;> simp [List.replicate]

lemma takeWhile_name (n : List Char) (hn : ∀ c ∈ n, (c != ' ') = true) (k : Nat) (r : List Char) :
    (n ++ (List.replicate k ' ' ++ ' ' :: r)).takeWhile (fun c => c != ' ') = n := by
  induction n with
  | nil => simpa using takeWhile_pad k r
  | cons c t ih =>
    have hc := hn c (List.mem_cons_self c t)
    simp only [List.cons_append, List.takeWhile_cons, hc, if_true]
    rw [ih fun d hd => hn d (List.mem_cons_of_mem c hd)]

lemma nameOf_lineBody (name value : String) (h : name.data.all (fun c => c != ' ') = true) :
    nameOf (lineBody name value) = name := by
  have h' : ∀ c ∈ name.data, (c != ' ') = true := by
    simpa [List.all_eq_true] using h
  have := takeWhile_name name.data h' (20 - name.data.length) value.data
  apply String.ext
  rw [nameOf, data_lineBody, this]

lemma lineBody_no_nl (name value : String) (hname : '\n' ∉ name.data)
    (hval : ∀ c ∈ value.data, c ∈ hexChars) :
    '\n' ∉ (lineBody name value).data ∧ lineBody name value ≠ "" := by
  constructor
  · rw [data_lineBody]
    intro hmem
    simp only [List.mem_append, List.mem_replicate, List.mem_cons] at hmem
    rcases hmem with h | ⟨-, h⟩ | h | h
    · exact hname h
    · exact absurd h (by decide)
    · exact absurd h (by decide)
    · exact absurd rfl ((hexChars_good _ (hval _ h)).1)
  · intro h
    have := congrArg String.data h
    rw [data_lineBody] at this
    simp at this

lemma line_cols (name value : String) (h : name.data.all (fun c => c != ' ') = true)
    (h19 : name.data.length ≤ 19) (hne : value.data ≠ [])
    (hval : ∀ c ∈ value.data, c ∈ hexChars) :
    (nameOf (lineBody name value)).data.length ≤ 19 ∧
    (lineBody name value).data.take 21
      = (nameOf (lineBody name value)).data
        ++ List.replicate (21 - (nameOf (lineBody name value)).data.length) ' ' ∧
    22 ≤ (lineBody name value).data.length ∧
    (lineBody name value).data.getD 21 ' ' ≠ ' ' := by
  rw [nameOf_lineBody name value h]
  refine ⟨h19, ?_, ?_, ?_⟩
  · rw [data_lineBody, List.take_append_eq_append_take,
      List.take_of_length_le (by omega)]
    congr 1
    rw [List.take_append_eq_append_take,
      List.take_of_length_le (by rw [List.length_replicate]; omega)]
    have h1 : 21 - name.data.length - (List.replicate (20 - name.data.length) ' ').length = 1 := by
      rw [List.length_replicate]; omega
    rw [h1]
    have h2 : 21 - name.data.length = (20 - name.data.length) + 1 := by omega
    rw [h2, List.replicate_succ']
    simp
  · rw [data_lineBody]
    have := List.length_pos.mpr hne
    simp only [List.length_append, List.length_replicate, List.length_cons]
    omega
  · rw [data_lineBody,
      List.getD_append_right _ _ _ _ (by omega),
      List.getD_append_right _ _ _ _ (by rw [List.length_replicate]; omega)]
    have h1 : 21 - name.data.length - (List.replicate (20 - name.data.length) ' ').length = 1 := by
      rw [List.length_replicate]; omega
    rw [h1, List.getD_cons_succ]
    rcases hv : value.data with - | ⟨c, t⟩
    · exact absurd hv hne
    · rw [List.getD_cons_zero]
      have hc : c ∈ hexChars := hval c (by rw [hv]; exact List.mem_cons_self c t)
      exact (hexChars_good c hc).2.1

lemma padRight_wide (s : String) : 20 ≤ (padRight s 20).data.length := by
  simp [padRight, String.data_append]
  omega

lemma mainTrace_eq_map (e : Env) :
    mainTrace e = (mainLines e).map (fun l => l ++ "\n") := rfl

lemma sconcat_map_nl (L : List String) :
    sconcat (L.map (fun l => l ++ "\n")) = unlines L := by
  induction L with
  | nil => rfl
  | cons l r ih => simp [sconcat, unlines, ih]

lemma mainOutput_unlines (e : Env) : mainOutput e = unlines (mainLines e) := by
  rw [mainOutput, mainTrace_eq_map, sconcat_map_nl]

lemma map_nameOf (e : Env) : (mainLines e).map nameOf = checklistNames := by
  simp +decide [mainLines, checklistNames, idNames, sizeNames, nameOf_lineBody]

lemma forall_no_nl (e : Env) :
    (mainLines e).Forall (fun l => '\n' ∉ l.data ∧ l ≠ "") := by
  rw [List.forall_iff_forall_mem]
  intro l hl
  simp only [mainLines, List.mem_cons, List.not_mem_nil, or_false] at hl
  rcases hl with rfl | rfl | rfl | rfl | rfl | rfl | rfl | rfl | rfl | rfl | rfl | rfl |
    rfl | rfl | rfl | rfl | rfl | rfl | rfl
  all_goals
    exact lineBody_no_nl _ _ (by decide) (render_mem (by norm_num) (by norm_num) _)

/-- Sanity check: the renderers compute, e.g. the x86-64 value of
`UFFDIO_WAKE` and a sample structure size. -/
example : hexStr 0x8010aa02 = ("8010aa02") := by decide

example : decStr 32 = ("32") := by decide

/-- C1: the output consists of exactly 19 newline-terminated lines —
first the 9 operation-identifier lines in the order register, unregister,
wake, copy, zero-page, move, write-protect, continue, poison, then the 10
structure-size lines in the order message, API, range, register, copy,
zero-page, write-protect, continue, poison, move; every line is nonempty
and contains no interior newline, so nothing outside this checklist and
no blank line is emitted. -/
theorem spec_c1 (e : Env) :
    mainOutput e = unlines (mainLines e) ∧
    (mainLines e).length = 19 ∧
    (mainLines e).Forall (fun l => '\n' ∉ l.data ∧ l ≠ "") ∧
    (mainLines e).map nameOf = idNames ++ sizeNames :=
  ⟨mainOutput_unlines e, rfl, forall_no_nl e, map_nameOf e⟩

/-- C2: every line is the symbolic name left-justified in a field of at
least 20 columns followed by the value field; each identifier value field
is nonempty lowercase hexadecimal without a `0x` prefix and parses back
(in base 16) to the identifier value, and each size value field parses
back (in base 10) to the size. -/
theorem spec_c2 (e : Env) :
    mainLines e
      = (idItems e).map (fun p => lineBody p.1 (hexStr p.2))
        ++ (sizeItems e).map (fun p => lineBody p.1 (decStr p.2)) ∧
    (idItems e).Forall (fun p =>
      20 ≤ (padRight p.1 20).data.length ∧
      parseNum 16 (hexStr p.2) = some p.2 ∧
      (hexStr p.2).data ≠ [] ∧
      (hexStr p.2).data.take 2 ≠ ['0', 'x'] ∧
      ∀ c ∈ (hexStr p.2).data, c ∈ hexChars ∧ c.isUpper = false) ∧
    (sizeItems e).Forall (fun p =>
      20 ≤ (padRight p.1 20).data.length ∧
      parseNum 10 (decStr p.2) = some p.2 ∧
      (decStr p.2).data ≠ []) := by
  refine ⟨rfl, ?_, ?_⟩
  · rw [List.forall_iff_forall_mem]
    intro p _
    refine ⟨padRight_wide _, parseNum_render (by norm_num) (by norm_num) _,
      render_ne_nil _ _, render_no_0x (by norm_num) (by norm_num) _, ?_⟩
    intro c hc
    have hm := render_mem (b := 16) (by norm_num) (by norm_num) p.2 c hc
    exact ⟨hm, (hexChars_good c hm).2.2.2⟩
  · rw [List.forall_iff_forall_mem]
    intro p _
    exact ⟨padRight_wide _, parseNum_render (by norm_num) (by norm_num) _,
      render_ne_nil _ _⟩

/-- C3: for every build environment and every invocation, the program
writes all 19 lines and terminates with exit status 0; `main` is a total
function with no other exit code and no runtime error path (a failing
standard-output stream is not modelled, matching the tool neither
detecting nor handling it). -/
theorem spec_c3 (e : Env) (argv : List String) (envp : List (String × String)) :
    main e argv envp = (unlines (mainLines e), 0) ∧ (mainLines e).length = 19 := by
  refine ⟨?_, rfl⟩
  show (mainOutput e, 0) = _
  rw [mainOutput_unlines]

/-- C4: for a fixed build environment, any two executions produce
byte-identical output: the output component of `main` is a deterministic
function of the build-time constants alone, whatever runtime inputs the
two executions receive. -/
theorem spec_c4 (e : Env) (argv₁ argv₂ : List String)
    (envp₁ envp₂ : List (String × String)) :
    (main e argv₁ envp₁).1 = (main e argv₂ envp₂).1 := rfl

/-- C5: the program recognises no command-line arguments and reads no
environment variables — running it with any `argv` and `envp` is
indistinguishable from running it with none; its codomain contains only
the standard-output text and the exit status, so no other external state
is touched. -/
theorem spec_c5 (e : Env) (argv : List String) (envp : List (String × String)) :
    main e argv envp = main e [] [] := rfl

/-- C6: each symbolic name field appears exactly once across the whole
19-line output: the name fields are exactly the checklist, which has no
duplicates, and every checklist name has count 1 among the emitted name
fields. -/
theorem spec_c6 (e : Env) :
    (mainLines e).map nameOf = checklistNames ∧
    checklistNames.Nodup ∧
    checklistNames.Forall (fun n => ((mainLines e).map nameOf).count n = 1) := by
  refine ⟨map_nameOf e, by decide, ?_⟩
  rw [map_nameOf e]
  decide

/-- C7: execution is one linear pass — a fixed list of exactly 19 write
events, whose concatenation is the whole output, after which the total
function `main` returns exit status 0; there is no branching, no loop
over dynamic data and no retry, as the trace is a constant-length list. -/
theorem spec_c7 (e : Env) (argv : List String) (envp : List (String × String)) :
    (mainTrace e).length = 19 ∧
    mainTrace e = (mainLines e).map (fun l => l ++ "\n") ∧
    main e argv envp = (sconcat (mainTrace e), 0) :=
  ⟨rfl, rfl, rfl⟩

/-- C8: on every output line the name field is at most 19 characters, the
first 21 columns are the name followed only by padding spaces (the
20-column field plus exactly one separating space), and column 22 (index
21) holds the first, non-space character of the value field, so the value
field starts at the same column on all 19 lines. -/
theorem spec_c8 (e : Env) :
    (mainLines e).Forall (fun l =>
      (nameOf l).data.length ≤ 19 ∧
      l.data.take 21 = (nameOf l).data ++ List.replicate (21 - (nameOf l).data.length) ' ' ∧
      22 ≤ l.data.length ∧
      l.data.getD 21 ' ' ≠ ' ') := by
  rw [List.forall_iff_forall_mem]
  intro l hl
  simp only [mainLines, List.mem_cons, List.not_mem_nil, or_false] at hl
  rcases hl with rfl | rfl | rfl | rfl | rfl | rfl | rfl | rfl | rfl | rfl | rfl | rfl |
    rfl | rfl | rfl | rfl | rfl | rfl | rfl
  all_goals
    exact line_cols _ _ (by decide) (by decide) (render_ne_nil _ _)
      (render_mem (by norm_num) (by norm_num) _)

/-- C9: the name field of each structure-size line is the bare lowercase
struct tag (no `struct` keyword, only lowercase letters, digits and
underscores), and the name field of each identifier line is the exact
uppercase constant name (uppercase letters and underscores only). -/
theorem spec_c9 (e : Env) :
    ((mainLines e).take 9).map nameOf = idNames ∧
    ((mainLines e).drop 9).map nameOf = sizeNames ∧
    sizeNames.Forall (fun n =>
      n.data ≠ [] ∧ n.data.Forall (fun c => c.isLower = true ∨ c = '_')) ∧
    idNames.Forall (fun n =>
      n.data ≠ [] ∧ n.data.Forall (fun c => c.isUpper = true ∨ c = '_')) := by
  refine ⟨?_, ?_, by decide, by decide⟩
  · rw [List.map_take, map_nameOf e]
    decide
  · rw [List.map_drop, map_nameOf e]
    decide

end SizeofTool
